import Mathlib

/-!
Shallow embedding of `convert.mjs` (VSCode theme CSS variables → DTCG tokens).
Strings are modelled as `List Char` where convenient; JavaScript numbers are
modelled as `Option ℚ` where `none` stands for NaN (exact rational arithmetic
stands in for IEEE doubles; every value manipulated by the program is either a
small integer divided by 255 or a short decimal literal, for which the claims
under study do not depend on rounding of the binary representation).
-/

namespace Convert

/-- ASCII whitespace, the fragment of the JS whitespace class that the inputs
of interest can contain (space, tab, LF, VT, FF, CR). -/
def jsWS (c : Char) : Bool := c = ' ' || (9 ≤ c.toNat && c.toNat ≤ 13)

/-- Model of JavaScript `String.prototype.trim` over the ASCII fragment. -/
def jsTrim (cs : List Char) : List Char :=
  ((cs.dropWhile jsWS).reverse.dropWhile jsWS).reverse

/-- The characters accepted by the `[0-9a-f]` class with the `i` flag, i.e. the
hex-digit characters of the color regular expression in `parseColor`. -/
def hexChars : List Char := ("0123456789abcdefABCDEF").data

def isHexDigitChar (c : Char) : Bool := decide (c ∈ hexChars)

/-- Numeric value `parseInt` assigns to one hexadecimal digit. -/
def hexVal : Char → ℕ
  | '0' => 0
  | '1' => 1
  | '2' => 2
  | '3' => 3
  | '4' => 4
  | '5' => 5
  | '6' => 6
  | '7' => 7
  | '8' => 8
  | '9' => 9
  | 'a' => 10
  | 'b' => 11
  | 'c' => 12
  | 'd' => 13
  | 'e' => 14
  | 'f' => 15
  | 'A' => 10
  | 'B' => 11
  | 'C' => 12
  | 'D' => 13
  | 'E' => 14
  | 'F' => 15
  | _ => 0

/-- The record returned by `parseColor` on success
(`{ r, g, b, a, hex }` in the source). -/
structure NormalizedColor where
  r : Option ℚ
  g : Option ℚ
  b : Option ℚ
  a : Option ℚ
  hex : String
  deriving DecidableEq, Repr

/-- `Math.max` on two (non-NaN) numbers. -/
def jsMax (a b : ℚ) : ℚ := if a ≤ b then b else a

/-- `Math.min` on two (non-NaN) numbers. -/
def jsMin (a b : ℚ) : ℚ := if a ≤ b then a else b

/-- `clamp01` from the source: `Math.min(1, Math.max(0, x))`; NaN propagates. -/
def clamp01 (x : Option ℚ) : Option ℚ := x.map (fun q => jsMin 1 (jsMax 0 q))

/-- The match of `/^#([0-9a-f]\x7b3,4\x7d|[0-9a-f]\x7b6\x7d|[0-9a-f]\x7b8\x7d)$/i`:
returns the captured digit characters when the whole (trimmed) value is a `#`
followed by exactly 3, 4, 6 or 8 hex digits. -/
def matchHexDigits (cs : List Char) : Option (List Char) :=
  match cs with
  | '#' :: ds =>
      if ds.all isHexDigitChar &&
          (ds.length = 3 || ds.length = 4 || ds.length = 6 || ds.length = 8) then
        some ds
      else
        none
  | _ => none

/-- `parseInt(h.slice(2*i, 2*i+2), 16)` for a string of hex digits. -/
def hexPairAt (h : List Char) (i : ℕ) : ℕ :=
  16 * hexVal (h.getD (2 * i) '0') + hexVal (h.getD (2 * i + 1) '0')

/-- The hex branch of `parseColor`, applied to the captured digits. -/
def hexBranch (ds : List Char) : NormalizedColor :=
  let h0 := ds.map Char.toLower
  let h := if h0.length = 3 || h0.length = 4 then h0.flatMap (fun c => [c, c]) else h0
  let r := hexPairAt h 0
  let g := hexPairAt h 1
  let b := hexPairAt h 2
  let a : ℚ := if h.length = 8 then (hexPairAt h 3 : ℚ) / 255 else 1
  { r := some ((r : ℚ) / 255)
    g := some ((g : ℚ) / 255)
    b := some ((b : ℚ) / 255)
    a := clamp01 (some a)
    hex := String.mk ('#' :: (h.take 6).map Char.toUpper) }

/-- A character of the `[\d.]` class. -/
def isNumChar (c : Char) : Bool := c.isDigit || c = '.'

/-- Greedy match of one `[\d.]+` group; fails on an empty match. -/
def takeNum (cs : List Char) : Option (List Char × List Char) :=
  let s := cs.takeWhile isNumChar
  if s.isEmpty then none else some (s, cs.dropWhile isNumChar)

def skipWS (cs : List Char) : List Char := cs.dropWhile jsWS

/-- Decimal value of a digit string (`parseInt` base 10 semantics on digits). -/
def natOfDigits (cs : List Char) : ℕ :=
  cs.foldl (fun n c => 10 * n + (c.toNat - 48)) 0

/-- JavaScript `Number(s)` for a string `s` matching `[\d.]+`:
NaN (`none`) when `s` has two or more dots or is just `"."`. -/
def numVal (cs : List Char) : Option ℚ :=
  let dots := cs.count '.'
  if dots = 0 then some ((natOfDigits cs : ℚ))
  else if dots = 1 && cs ≠ ['.'] then
    let ip := cs.takeWhile (fun c => c ≠ '.')
    let fp := (cs.dropWhile (fun c => c ≠ '.')).drop 1
    some ((natOfDigits ip : ℚ) + (natOfDigits fp : ℚ) / (10 : ℚ) ^ fp.length)
  else none

/-- Matcher for the part of the rgb regular expression after the opening
parenthesis: `\s*([\d.]+)\s*,\s*([\d.]+)\s*,\s*([\d.]+)\s*(?:,\s*([\d.]+)\s*)?\)$`.
Returns the three (or four) captured digit groups. -/
def rgbTail (t : List Char) :
    Option (List Char × List Char × List Char × Option (List Char)) :=
  match takeNum (skipWS t) with
  | none => none
  | some (s1, t1) =>
    match skipWS t1 with
    | ',' :: t2 =>
      match takeNum (skipWS t2) with
      | none => none
      | some (s2, t3) =>
        match skipWS t3 with
        | ',' :: t4 =>
          match takeNum (skipWS t4) with
          | none => none
          | some (s3, t5) =>
            match skipWS t5 with
            | ')' :: t6 => if t6 = [] then some (s1, s2, s3, none) else none
            | ',' :: t6 =>
              match takeNum (skipWS t6) with
              | none => none
              | some (s4, t7) =>
                match skipWS t7 with
                | ')' :: t8 => if t8 = [] then some (s1, s2, s3, some s4) else none
                | _ => none
            | _ => none
        | _ => none
    | _ => none

/-- Matcher for `/^rgba?\(...\)$/i`: a case-insensitive `rgb` or `rgba` head,
an opening parenthesis, then `rgbTail`. -/
def matchRgbParts (cs : List Char) :
    Option (List Char × List Char × List Char × Option (List Char)) :=
  match cs with
  | c1 :: c2 :: c3 :: rest =>
    if c1.toLower = 'r' && c2.toLower = 'g' && c3.toLower = 'b' then
      let rest2 := match rest with
        | c :: t => if c.toLower = 'a' then t else rest
        | [] => rest
      match rest2 with
      | '(' :: t => rgbTail t
      | _ => none
    else none
  | _ => none

/-- `Math.round`: nearest integer, ties toward +infinity. -/
def jsRound (q : ℚ) : ℤ := ⌊q + 1 / 2⌋

def hexDigitChar (n : ℕ) : Char := (("0123456789abcdef").data).getD n '0'

/-- Base-16 digit expansion with structural fuel (the fuel only needs to
exceed the digit count, and `n + 1` always does). -/
def natToHexAux : ℕ → ℕ → List Char
  | 0, _ => []
  | fuel + 1, n =>
    if n < 16 then [hexDigitChar n]
    else natToHexAux fuel (n / 16) ++ [hexDigitChar (n % 16)]

/-- `n.toString(16)` for a non-negative integer. -/
def natToHexChars (n : ℕ) : List Char := natToHexAux (n + 1) n

/-- `i.toString(16)` for an integer. -/
def intToHexChars (i : ℤ) : List Char :=
  if i < 0 then '-' :: natToHexChars (-i).toNat else natToHexChars i.toNat

/-- `padStart(2, "0")`. -/
def pad2 (l : List Char) : List Char :=
  if l.length < 2 then List.replicate (2 - l.length) '0' ++ l else l

/-- `toHex` from the rgb branch:
`Math.round(n).toString(16).padStart(2, "0").toUpperCase()`;
`Math.round(NaN)` is NaN and `NaN.toString(16)` is the string `"NaN"`. -/
def toHex (x : Option ℚ) : List Char :=
  match x with
  | none => ['N', 'A', 'N']
  | some q => (pad2 (intToHexChars (jsRound q))).map Char.toUpper

def jsDiv255 (x : Option ℚ) : Option ℚ := x.map (fun q => q / 255)

/-- The rgb/rgba branch of `parseColor`, applied to the captured groups. -/
def rgbBranch (s1 s2 s3 : List Char) (s4 : Option (List Char)) : NormalizedColor :=
  let r := numVal s1
  let g := numVal s2
  let b := numVal s3
  let a := match s4 with
    | none => some (1 : ℚ)
    | some s => numVal s
  { r := clamp01 (jsDiv255 r)
    g := clamp01 (jsDiv255 g)
    b := clamp01 (jsDiv255 b)
    a := clamp01 a
    hex := String.mk ('#' :: (toHex r ++ toHex g ++ toHex b)) }

/-- `parseColor` from `convert.mjs`. -/
def parseColor (v : String) : Option NormalizedColor :=
  let w := jsTrim v.data
  if w = ("transparent").data then
    some { r := some 0, g := some 0, b := some 0, a := some 0, hex := "#000000" }
  else
    match matchHexDigits w with
    | some ds => some (hexBranch ds)
    | none =>
      match matchRgbParts w with
      | some (s1, s2, s3, s4) => some (rgbBranch s1 s2 s3 s4)
      | none => none

def lowerHexChars : List Char := ("0123456789abcdef").data

def upperHexChars : List Char := ("0123456789ABCDEF").data

/-- The shape required of the `hex` field by the specification:
`#` followed by exactly six uppercase hex digits. -/
def isUpperHex6 (s : String) : Bool :=
  match s.data with
  | '#' :: r => decide (r.length = 6) && r.all (fun c => decide (c ∈ upperHexChars))
  | _ => false

/-- Decoder for a `#RRGGBB` string, used to state that the `hex` field
encodes the color components; `none` when the shape is wrong. -/
def hexDecode (s : String) : Option (ℤ × ℤ × ℤ) :=
  match s.data with
  | ['#', c1, c2, c3, c4, c5, c6] =>
    some (((16 * hexVal c1 + hexVal c2 : ℕ) : ℤ),
          ((16 * hexVal c3 + hexVal c4 : ℕ) : ℤ),
          ((16 * hexVal c5 + hexVal c6 : ℕ) : ℤ))
  | _ => none

/-- The invariant claimed for every `NormalizedColor` produced by the parser:
components and alpha are (non-NaN) rationals in the unit interval, `hex` is a
`#`-prefixed 6-digit uppercase hex string, and `hex` encodes exactly the
8-bit roundings of the r, g, b components. -/
def colorInvariant (c : NormalizedColor) : Prop :=
  ∃ qr qg qb qa : ℚ,
    c.r = some qr ∧ c.g = some qg ∧ c.b = some qb ∧ c.a = some qa ∧
    0 ≤ qr ∧ qr ≤ 1 ∧ 0 ≤ qg ∧ qg ≤ 1 ∧ 0 ≤ qb ∧ qb ≤ 1 ∧ 0 ≤ qa ∧ qa ≤ 1 ∧
    isUpperHex6 c.hex = true ∧
    hexDecode c.hex =
      some (jsRound (qr * 255), jsRound (qg * 255), jsRound (qb * 255))

/-- One rgb channel numeral parses to a non-NaN value of at most 255. -/
def chanSafe (s : List Char) : Bool :=
  match numVal s with
  | some q => decide (q ≤ 255)
  | none => false

/-- The input either is not an rgb()/rgba() form, or is one whose three
channel numerals are non-NaN and at most 255 and whose alpha numeral, when
present, is non-NaN. -/
def rgbSafe (v : String) : Bool :=
  match matchRgbParts (jsTrim v.data) with
  | none => true
  | some (s1, s2, s3, s4) =>
    chanSafe s1 && chanSafe s2 && chanSafe s3 &&
      (match s4 with
       | none => true
       | some s => (numVal s).isSome)

/-- `$type`/`$value.{...}` payload of a DTCG color token. -/
structure DtcgValue where
  colorSpace : String
  components : List (Option ℚ)
  alpha : Option ℚ
  hex : String
  deriving DecidableEq, Repr

/-- A DTCG color token as built by `makeDtcgColorTokenFromParsedColor`. -/
structure DtcgToken where
  type : String
  value : DtcgValue
  deriving DecidableEq, Repr

def makeDtcgColorTokenFromParsedColor (c : NormalizedColor) : DtcgToken :=
  { type := "color"
    value :=
      { colorSpace := "srgb"
        components := [c.r, c.g, c.b]
        alpha := c.a
        hex := c.hex } }

def TRANSPARENT_TOKEN : DtcgToken :=
  makeDtcgColorTokenFromParsedColor
    { r := some 0, g := some 0, b := some 0, a := some 0, hex := "#000000" }

/-- `p` is a leading run of `cs` (the anchored literal part of a regex). -/
def leadsWith : List Char → List Char → Bool
  | [], _ => true
  | _ :: _, [] => false
  | p :: ps, c :: cs => p = c && leadsWith ps cs

/-- `n.replace` of one anchored leading `--`, if present. -/
def stripDashes (cs : List Char) : List Char :=
  if leadsWith ("--").data cs then cs.drop 2 else cs

/-- `n.replace` of one anchored leading `vscode-`, if present. -/
def stripVscode (cs : List Char) : List Char :=
  if leadsWith ("vscode-").data cs then cs.drop 7 else cs

/-- `String.prototype.split("-")`: always returns at least one (possibly
empty) segment. -/
def splitDash : List Char → List (List Char)
  | [] => [[]]
  | c :: t =>
    match splitDash t with
    | [] => [[]]
    | h :: rest => if c = '-' then [] :: h :: rest else (c :: h) :: rest

/-- `parts.slice(1).join("-")`. -/
def joinDash (segs : List (List Char)) : List Char :=
  match segs with
  | [] => []
  | [s] => s
  | s :: rest => s ++ '-' :: joinDash rest

/-- `toTokenPath` from `convert.mjs`. -/
def toTokenPath (cssVarName : String) : List String :=
  let segs := splitDash (stripVscode (stripDashes (jsTrim cssVarName.data)))
  if segs.length = 1 then
    ["vscode", String.mk (segs.getD 0 [])]
  else
    ["vscode", String.mk (segs.getD 0 []), String.mk (joinDash (segs.drop 1))]

/-- Flat token sets: JS objects mapping variable names to tokens, modelled as
association lists in insertion order with unique keys. -/
abbrev Flat := List (String × DtcgToken)

/-- `obj[k] = v` on a JS object: replace in place when the key exists,
append otherwise. -/
def objSet {α : Type} (l : List (String × α)) (k : String) (v : α) :
    List (String × α) :=
  match l with
  | [] => [(k, v)]
  | (k0, v0) :: t => if k0 = k then (k, v) :: t else (k0, v0) :: objSet t k v

/-- `flattenCssVarsToColorTokens` from `convert.mjs`. -/
def flattenCssVarsToColorTokens (cssVars : List (String × String)) : Flat :=
  cssVars.foldl
    (fun flat kv =>
      if leadsWith ("--vscode-").data kv.1.data then
        match parseColor kv.2 with
        | some c => objSet flat kv.1 (makeDtcgColorTokenFromParsedColor c)
        | none => flat
      else flat)
    []

/-- `Set.prototype.add`: keep the first occurrence, in insertion order. -/
def setAdd (l : List String) (k : String) : List String :=
  if k ∈ l then l else l ++ [k]

/-- Lexicographic code-unit comparison on character lists: the order used by
the default JavaScript `Array.prototype.sort()` on strings. -/
def listLe : List Char → List Char → Bool
  | [], _ => true
  | _ :: _, [] => false
  | a :: as, b :: bs =>
    if a.toNat < b.toNat then true
    else if b.toNat < a.toNat then false
    else listLe as bs

def strLe (a b : String) : Bool := listLe a.data b.data

/-- The union block of `main`: the insertion-ordered set of all keys of all
sources, then `Array.from(set).sort()` (lexicographic ascending). -/
def unionKeysOf (items : List (String × Flat)) : List String :=
  List.insertionSort (fun a b => strLe a b = true)
    (items.foldl (fun acc it => it.2.foldl (fun a kv => setAdd a kv.1) acc) [])

/-- The per-source loop of the union block: build `unionFlat` and `missing`
by iterating the union keys in order. -/
def unionLoop (flat : Flat) (keys : List String) : Flat × List String :=
  keys.foldl
    (fun acc k =>
      match List.lookup k flat with
      | some t => (acc.1 ++ [(k, t)], acc.2)
      | none => (acc.1 ++ [(k, TRANSPARENT_TOKEN)], acc.2 ++ [k]))
    ([], [])

/-- The union report of `main`: `totalUnionKeys` together with, per source,
the `missing` list and `present = unionKeys.length - missing.length`. -/
def unionReport (items : List (String × Flat)) :
    ℕ × List (String × List String × ℤ) :=
  let uk := unionKeysOf items
  (uk.length,
    items.map (fun it =>
      let m := (unionLoop it.2 uk).2
      (it.1, m, (uk.length : ℤ) - (m.length : ℤ))))

/-- JS values reachable in a token tree: objects (in key insertion order),
strings, numbers and arrays. -/
inductive Node where
  | obj : List (String × Node) → Node
  | str : String → Node
  | num : Option ℚ → Node
  | arr : List Node → Node

/-- The JSON object representation of a DTCG token, as written by the tool. -/
def tokenNode (t : DtcgToken) : Node :=
  .obj [("$type", .str t.type),
        ("$value", .obj
          [("colorSpace", .str t.value.colorSpace),
           ("components", .arr (t.value.components.map Node.num)),
           ("alpha", .num t.value.alpha),
           ("hex", .str t.value.hex)])]

def objGet (l : List (String × Node)) (k : String) : Option Node :=
  List.lookup k l

/-- `setNested` from `convert.mjs`. `cur[k] ??= \x7b\x7d` creates a fresh object
when the key is absent, otherwise descends into the existing value, whatever
it is; `none` models the strict-mode TypeError raised when a property is
created on a primitive (string/number) value. (The JS original mutates in
place; on error-free runs — the only ones the claims quantify over — the
functional result coincides.) -/
def setNested (n : Node) (path : List String) (value : Node) : Option Node :=
  match n, path with
  | .obj l, [k] => some (.obj (objSet l k value))
  | .obj l, k :: r :: rest =>
    let child := match objGet l k with
      | none => Node.obj []
      | some c => c
    match setNested child (r :: rest) value with
    | some c2 => some (.obj (objSet l k c2))
    | none => none
  | _, _ => none

/-- `nestFlatTokens` from `convert.mjs`: fold the keys (the flat map's own
keys, or the explicitly supplied ordering) into a tree via `setNested`;
keys absent from the flat map are skipped. -/
def nestFlatTokens (flatMap : Flat) (orderedKeys : Option (List String)) :
    Option Node :=
  let keys := orderedKeys.getD (flatMap.map Prod.fst)
  keys.foldl
    (fun acc k =>
      match acc, List.lookup k flatMap with
      | none, _ => none
      | some tree, none => some tree
      | some tree, some t => setNested tree (toTokenPath k) (tokenNode t))
    (some (.obj []))

/-- The node is a JS object. -/
def isObjN : Node → Prop
  | .obj _ => True
  | _ => False

/-- An object all of whose own values are objects. -/
def lvl1Ok : Node → Prop
  | .obj l => ∀ kv ∈ l, isObjN kv.2
  | _ => False

/-- An object whose values are objects of objects: the shape every
intermediate tree built by `nestFlatTokens` has down to the depth that
`setNested` ever descends to. -/
def rootOkN : Node → Prop
  | .obj l => ∀ kv ∈ l, lvl1Ok kv.2
  | _ => False

/-- Sample tokens used to exhibit the prefix-collision behavior. -/
def tokenA : DtcgToken :=
  makeDtcgColorTokenFromParsedColor
    { r := some 1, g := some 1, b := some 1, a := some 1, hex := "#FFFFFF" }

def tokenB : DtcgToken :=
  makeDtcgColorTokenFromParsedColor
    { r := some 0, g := some 0, b := some 0, a := some 0, hex := "#000000" }

/-! ### Support lemmas -/

lemma dropWhile_of_false {p : Char → Bool} {l : List Char}
    (h : ∀ c ∈ l, p c = false) : l.dropWhile p = l := by
  cases l with
  | nil => rfl
  | cons a t => simp [List.dropWhile_cons, h a (by simp)]

lemma jsTrim_eq_self {cs : List Char} (h : ∀ c ∈ cs, jsWS c = false) :
    jsTrim cs = cs := by
  unfold jsTrim
  rw [dropWhile_of_false h, dropWhile_of_false (by simpa using h)]
  simp

lemma hex_not_ws : ∀ c ∈ hexChars, jsWS c = false := by decide

lemma hexVal_toLower : ∀ c ∈ hexChars, hexVal (Char.toLower c) = hexVal c := by decide

lemma toUpper_toLower_of_hex :
    ∀ c ∈ hexChars, Char.toUpper (Char.toLower c) = Char.toUpper c := by decide

lemma toLower_mem_of_hex : ∀ c ∈ hexChars, Char.toLower c ∈ hexChars := by decide

lemma hexVal_le_of_mem : ∀ c ∈ hexChars, hexVal c ≤ 15 := by decide

lemma isHexDigitChar_iff {c : Char} : isHexDigitChar c = true ↔ c ∈ hexChars := by
  simp [isHexDigitChar]

lemma clamp01_of_bounds {q : ℚ} (h0 : 0 ≤ q) (h1 : q ≤ 1) :
    clamp01 (some q) = some q := by
  show some (jsMin 1 (jsMax 0 q)) = some q
  unfold jsMin jsMax
  rw [if_pos h0]
  by_cases h : (1 : ℚ) ≤ q
  · rw [if_pos h]
    exact congrArg some (le_antisymm h h1)
  · rw [if_neg h]

lemma clamp01_mem_unit (q : ℚ) :
    0 ≤ jsMin 1 (jsMax 0 q) ∧ jsMin 1 (jsMax 0 q) ≤ 1 := by
  unfold jsMin jsMax
  by_cases h0 : (0 : ℚ) ≤ q
  · rw [if_pos h0]
    by_cases h1 : (1 : ℚ) ≤ q
    · rw [if_pos h1]
      constructor <;> norm_num
    · rw [if_neg h1]
      exact ⟨h0, by linarith⟩
  · rw [if_neg h0]
    norm_num

lemma hash_ne_transparent (ds : List Char) :
    ('#' :: ds) ≠ ("transparent").data := by
  intro h
  have h1 := congrArg (fun l => l.headD ' ') h
  simp only [List.headD_cons] at h1
  exact absurd h1 (by decide)

lemma matchHexDigits_eq_some {cs ds : List Char}
    (h : matchHexDigits cs = some ds) :
    cs = '#' :: ds ∧ (∀ c ∈ ds, c ∈ hexChars) ∧
      (ds.length = 3 ∨ ds.length = 4 ∨ ds.length = 6 ∨ ds.length = 8) := by
  unfold matchHexDigits at h
  split at h
  · next ds1 =>
    split at h
    · next hcond =>
      obtain rfl : ds1 = ds := by simpa using h
      simp only [Bool.and_eq_true, List.all_eq_true, Bool.or_eq_true,
        decide_eq_true_eq] at hcond
      exact ⟨rfl, fun c hc => isHexDigitChar_iff.mp (hcond.1 c hc), by tauto⟩
    · exact absurd h (by simp)
  · next => exact absurd h (by simp)

/-- `parseColor` on a value that trims to a hex literal. -/
lemma parseColor_hex {v : String} (ds : List Char)
    (h : matchHexDigits (jsTrim v.data) = some ds) :
    parseColor v = some (hexBranch ds) := by
  obtain ⟨hcs, -, -⟩ := matchHexDigits_eq_some h
  unfold parseColor
  rw [hcs, if_neg (hash_ne_transparent ds)]
  rw [hcs] at h
  rw [h]

/-! ### Claim theorems -/

/-- Claim C10: keyword matching in `parseColor` is case-sensitive while hex
and functional matching are case-insensitive: `Transparent` and `TRANSPARENT`
parse to null, while `#ABCDEF` and `RGB(0, 0, 0)` parse successfully. -/
theorem C10_case_sensitivity :
    parseColor "Transparent" = none ∧
    parseColor "TRANSPARENT" = none ∧
    (parseColor "#ABCDEF").isSome = true ∧
    (parseColor "RGB(0, 0, 0)").isSome = true := by
  refine ⟨by decide, by decide, by decide, by decide⟩

/-- Claim C3: `toTokenPath` strips one leading `--` and one leading `vscode-`,
splits the remainder on `-`, and produces `[vscode, segment]` for a single
segment, else `[vscode, first, rest-joined-with-dashes]`; in particular on the
three example inputs of the specification. -/
theorem C3_token_paths :
    (∀ name : String,
      toTokenPath name =
        (let segs := splitDash (stripVscode (stripDashes (jsTrim name.data)))
         if segs.length = 1 then
           ["vscode", String.mk (segs.getD 0 [])]
         else
           ["vscode", String.mk (segs.getD 0 []),
             String.mk (joinDash (segs.drop 1))])) ∧
    toTokenPath "--vscode-editor-background" = ["vscode", "editor", "background"] ∧
    toTokenPath "--vscode-foreground" = ["vscode", "foreground"] ∧
    toTokenPath "--vscode-editor-inactiveSelection-background" =
      ["vscode", "editor", "inactiveSelection-background"] := by
  refine ⟨fun name => rfl, by decide, by decide, by decide⟩

/-- Claim C7: `parseColor` returns null exactly when the trimmed input is
neither the keyword `transparent`, nor `#` followed by 3/4/6/8 hex digits,
nor an rgb()/rgba() functional form; empty, whitespace-only, `var(--foo)` and
`currentColor` inputs give null, and `transparent` gives transparent black. -/
theorem C7_null_exactly_when_unrecognized :
    (∀ v : String,
      (parseColor v = none ↔
        ¬(jsTrim v.data = ("transparent").data ∨
          (matchHexDigits (jsTrim v.data)).isSome = true ∨
          (matchRgbParts (jsTrim v.data)).isSome = true))) ∧
    parseColor "" = none ∧
    parseColor "   " = none ∧
    parseColor "var(--foo)" = none ∧
    parseColor "currentColor" = none ∧
    parseColor "transparent" =
      some { r := some 0, g := some 0, b := some 0, a := some 0,
             hex := "#000000" } := by
  refine ⟨fun v => ?_, by decide, by decide, by decide, by decide, by decide⟩
  unfold parseColor
  by_cases h1 : jsTrim v.data = ("transparent").data
  · simp [h1]
  · rw [if_neg h1]
    cases h2 : matchHexDigits (jsTrim v.data) with
    | some ds => simp [h1, h2]
    | none =>
      cases h3 : matchRgbParts (jsTrim v.data) with
      | some parts =>
        obtain ⟨s1, s2, s3, s4⟩ := parts
        simp [h1, h2, h3]
      | none => simp [h1, h2, h3]

/-! ### Nesting: totality invariant -/

lemma objSet_mem {α : Type} {l : List (String × α)} {k : String} {v : α} :
    ∀ kv ∈ objSet l k v, kv ∈ l ∨ kv = (k, v) := by
  induction l with
  | nil =>
    intro kv h
    simp only [objSet, List.mem_singleton] at h
    exact Or.inr h
  | cons a t ih =>
    obtain ⟨k0, v0⟩ := a
    intro kv h
    simp only [objSet] at h
    by_cases hk : k0 = k
    · rw [if_pos hk] at h
      rcases List.mem_cons.mp h with h1 | h1
      · exact Or.inr h1
      · exact Or.inl (List.mem_cons_of_mem _ h1)
    · rw [if_neg hk] at h
      rcases List.mem_cons.mp h with h1 | h1
      · exact Or.inl (h1 ▸ List.mem_cons_self _ _)
      · rcases ih kv h1 with h2 | h2
        · exact Or.inl (List.mem_cons_of_mem _ h2)
        · exact Or.inr h2

lemma lvl1Ok_obj {n : Node} (h : lvl1Ok n) :
    ∃ l, n = .obj l ∧ ∀ kv ∈ l, isObjN kv.2 := by
  cases n with
  | obj l => exact ⟨l, rfl, h⟩
  | str s => exact absurd h (by simp [lvl1Ok])
  | num q => exact absurd h (by simp [lvl1Ok])
  | arr a => exact absurd h (by simp [lvl1Ok])

lemma isObjN_obj {n : Node} (h : isObjN n) : ∃ l, n = .obj l := by
  cases n with
  | obj l => exact ⟨l, rfl⟩
  | str s => exact absurd h (by simp [isObjN])
  | num q => exact absurd h (by simp [isObjN])
  | arr a => exact absurd h (by simp [isObjN])

lemma lookup_mem {α : Type} {l : List (String × α)} {k : String} {v : α}
    (h : List.lookup k l = some v) : (k, v) ∈ l := by
  induction l with
  | nil => simp [List.lookup] at h
  | cons a t ih =>
    obtain ⟨k0, v0⟩ := a
    by_cases hk : k = k0
    · subst hk
      have heq : List.lookup k ((k, v0) :: t) = some v0 := by
        simp [List.lookup]
      rw [heq] at h
      obtain rfl : v0 = v := by injection h
      exact List.mem_cons_self _ _
    · have hb : (k == k0) = false := beq_eq_false_iff_ne.mpr hk
      have heq : List.lookup k ((k0, v0) :: t) = List.lookup k t := by
        simp [List.lookup, hb]
      rw [heq] at h
      exact List.mem_cons_of_mem _ (ih h)

/-- `setNested` succeeds on every path of length 2 or 3 whenever the tree
satisfies the two-level object invariant, and the result satisfies it again. -/
lemma setNested_ok {n : Node} (hn : rootOkN n) {p : List String}
    (hp : p.length = 2 ∨ p.length = 3) {v : Node} (hv : isObjN v) :
    ∃ m, setNested n p v = some m ∧ rootOkN m := by
  obtain ⟨l, rfl⟩ : ∃ l, n = .obj l := by
    cases n with
    | obj l => exact ⟨l, rfl⟩
    | str s => exact absurd hn (by simp [rootOkN])
    | num q => exact absurd hn (by simp [rootOkN])
    | arr a => exact absurd hn (by simp [rootOkN])
  rcases hp with hp | hp
  · obtain ⟨a, b, rfl⟩ := List.length_eq_two.mp hp
    have hchild : ∃ m1, (match objGet l a with
        | none => Node.obj []
        | some c => c) = Node.obj m1 ∧ ∀ kv ∈ m1, isObjN kv.2 := by
      cases hg : objGet l a with
      | none => exact ⟨[], rfl, by simp⟩
      | some c =>
        have hmem : (a, c) ∈ l := lookup_mem hg
        obtain ⟨m1, rfl, hm1⟩ := lvl1Ok_obj (hn _ hmem)
        exact ⟨m1, rfl, hm1⟩
    obtain ⟨m1, hm1eq, hm1⟩ := hchild
    refine ⟨.obj (objSet l a (.obj (objSet m1 b v))), ?_, ?_⟩
    · show setNested (.obj l) [a, b] v = _
      simp only [setNested, hm1eq]
    · intro kv hkv
      rcases objSet_mem kv hkv with h1 | h1
      · exact hn kv h1
      · subst h1
        intro kv2 hkv2
        rcases objSet_mem kv2 hkv2 with h2 | h2
        · exact hm1 kv2 h2
        · subst h2; exact hv
  · obtain ⟨a, b, c3, rfl⟩ := List.length_eq_three.mp hp
    have hchild : ∃ m1, (match objGet l a with
        | none => Node.obj []
        | some c => c) = Node.obj m1 ∧ ∀ kv ∈ m1, isObjN kv.2 := by
      cases hg : objGet l a with
      | none => exact ⟨[], rfl, by simp⟩
      | some c =>
        have hmem : (a, c) ∈ l := lookup_mem hg
        obtain ⟨m1, rfl, hm1⟩ := lvl1Ok_obj (hn _ hmem)
        exact ⟨m1, rfl, hm1⟩
    obtain ⟨m1, hm1eq, hm1⟩ := hchild
    have hchild2 : ∃ m2, (match objGet m1 b with
        | none => Node.obj []
        | some c => c) = Node.obj m2 := by
      cases hg : objGet m1 b with
      | none => exact ⟨[], rfl⟩
      | some c =>
        have hmem : (b, c) ∈ m1 := lookup_mem hg
        exact isObjN_obj (hm1 _ hmem)
    obtain ⟨m2, hm2eq⟩ := hchild2
    refine ⟨.obj (objSet l a (.obj (objSet m1 b (.obj (objSet m2 c3 v))))), ?_, ?_⟩
    · show setNested (.obj l) [a, b, c3] v = _
      simp only [setNested, hm1eq, hm2eq]
    · intro kv hkv
      rcases objSet_mem kv hkv with h1 | h1
      · exact hn kv h1
      · subst h1
        intro kv2 hkv2
        rcases objSet_mem kv2 hkv2 with h2 | h2
        · exact hm1 kv2 h2
        · subst h2; trivial

lemma toTokenPath_len (name : String) :
    (toTokenPath name).length = 2 ∨ (toTokenPath name).length = 3 := by
  unfold toTokenPath
  by_cases h : (splitDash (stripVscode (stripDashes (jsTrim name.data)))).length = 1
  · left; simp [h]
  · right; simp [h]

lemma isObjN_tokenNode (t : DtcgToken) : isObjN (tokenNode t) := by
  simp [tokenNode, isObjN]

/-- `nestFlatTokens` never fails: every run returns a tree. -/
lemma nestFlatTokens_isSome (flatMap : Flat) (orderedKeys : Option (List String)) :
    ∃ tree, nestFlatTokens flatMap orderedKeys = some tree := by
  unfold nestFlatTokens
  have main : ∀ (keys : List String) (acc : Option Node),
      (∃ t, acc = some t ∧ rootOkN t) →
      ∃ tree, (keys.foldl
        (fun acc k =>
          match acc, List.lookup k flatMap with
          | none, _ => none
          | some tree, none => some tree
          | some tree, some t =>
              setNested tree (toTokenPath k) (tokenNode t)) acc) = some tree ∧
        rootOkN tree := by
    intro keys
    induction keys with
    | nil =>
      rintro acc ⟨t, rfl, ht⟩
      exact ⟨t, rfl, ht⟩
    | cons k ks ih =>
      rintro acc ⟨t, rfl, ht⟩
      simp only [List.foldl_cons]
      cases hl : List.lookup k flatMap with
      | none => exact ih _ ⟨t, by simp [hl], ht⟩
      | some tok =>
        obtain ⟨m, hm, hm2⟩ :=
          setNested_ok ht (toTokenPath_len k) (isObjN_tokenNode tok)
        exact ih _ ⟨m, by simp [hl, hm], hm2⟩
  obtain ⟨tree, htree, -⟩ :=
    main (orderedKeys.getD (flatMap.map Prod.fst)) (some (.obj []))
      ⟨.obj [], rfl, by simp [rootOkN]⟩
  exact ⟨tree, htree⟩

/-- Claim C9: when one resolved path is a strict prefix of another,
the nester raises no error (it never fails on any input), and the outcome is
deterministic last-write-wins by iteration order: inserting
`--vscode-foo` then `--vscode-foo-bar` corrupts the earlier token object by
growing a `bar` property inside it, while the reverse order silently
overwrites the earlier subtree with the later token. -/
theorem C9_prefix_collision :
    (∀ (flatMap : Flat) (orderedKeys : Option (List String)),
      ∃ tree, nestFlatTokens flatMap orderedKeys = some tree) ∧
    nestFlatTokens [("--vscode-foo", tokenA), ("--vscode-foo-bar", tokenB)] none =
      some (.obj [("vscode", .obj [("foo",
        .obj [("$type", .str "color"),
              ("$value", .obj
                [("colorSpace", .str "srgb"),
                 ("components", .arr [.num (some 1), .num (some 1), .num (some 1)]),
                 ("alpha", .num (some 1)),
                 ("hex", .str "#FFFFFF")]),
              ("bar", tokenNode tokenB)])])]) ∧
    nestFlatTokens [("--vscode-foo-bar", tokenB), ("--vscode-foo", tokenA)] none =
      some (.obj [("vscode", .obj [("foo", tokenNode tokenA)])]) := by
  refine ⟨nestFlatTokens_isSome, ?_, ?_⟩ <;> rfl

/-! ### Hex-branch lemmas -/

lemma matchHexDigits_of {ds : List Char} (hall : ∀ c ∈ ds, c ∈ hexChars)
    (hlen : ds.length = 3 ∨ ds.length = 4 ∨ ds.length = 6 ∨ ds.length = 8) :
    matchHexDigits ('#' :: ds) = some ds := by
  have h1 : (ds.all isHexDigitChar &&
      (decide (ds.length = 3) || decide (ds.length = 4) || decide (ds.length = 6) ||
        decide (ds.length = 8))) = true := by
    rw [Bool.and_eq_true]
    constructor
    · rw [List.all_eq_true]
      intro c hc
      exact isHexDigitChar_iff.mpr (hall c hc)
    · simp only [Bool.or_eq_true, decide_eq_true_eq]
      tauto
  show (if (ds.all isHexDigitChar &&
      (decide (ds.length = 3) || decide (ds.length = 4) || decide (ds.length = 6) ||
        decide (ds.length = 8))) = true then some ds else none) = some ds
  rw [if_pos h1]

lemma jsTrim_hash_hex {ds : List Char} (hall : ∀ c ∈ ds, c ∈ hexChars) :
    jsTrim ('#' :: ds) = '#' :: ds := by
  apply jsTrim_eq_self
  intro c hc
  rcases List.mem_cons.mp hc with rfl | hc
  · decide
  · exact hex_not_ws c (hall c hc)

lemma length_eq_six {α : Type} {l : List α} (h : l.length = 6) :
    ∃ a b c d e f, l = [a, b, c, d, e, f] := by
  rcases l with _ | ⟨a, l⟩; · simp at h
  rcases l with _ | ⟨b, l⟩; · simp at h
  rcases l with _ | ⟨c, l⟩; · simp at h
  rcases l with _ | ⟨d, l⟩; · simp at h
  rcases l with _ | ⟨e, l⟩; · simp at h
  rcases l with _ | ⟨f, l⟩; · simp at h
  rcases l with _ | ⟨g, l⟩
  · exact ⟨a, b, c, d, e, f, rfl⟩
  · simp at h

lemma length_eq_eight {α : Type} {l : List α} (h : l.length = 8) :
    ∃ a b c d e f g k, l = [a, b, c, d, e, f, g, k] := by
  rcases l with _ | ⟨a, l⟩; · simp at h
  rcases l with _ | ⟨b, l⟩; · simp at h
  rcases l with _ | ⟨c, l⟩; · simp at h
  rcases l with _ | ⟨d, l⟩; · simp at h
  rcases l with _ | ⟨e, l⟩; · simp at h
  rcases l with _ | ⟨f, l⟩; · simp at h
  rcases l with _ | ⟨g, l⟩; · simp at h
  rcases l with _ | ⟨k, l⟩; · simp at h
  rcases l with _ | ⟨m, l⟩
  · exact ⟨a, b, c, d, e, f, g, k, rfl⟩
  · simp at h

/-- Claim C8: 3-digit hex inputs parse identically to their digit-doubled
6-digit equivalents, and 4-digit inputs to their digit-doubled 8-digit
equivalents. -/
theorem C8_digit_doubling :
    (∀ d1 d2 d3 : Char, d1 ∈ hexChars → d2 ∈ hexChars → d3 ∈ hexChars →
      parseColor (String.mk ['#', d1, d2, d3]) =
        parseColor (String.mk ['#', d1, d1, d2, d2, d3, d3])) ∧
    (∀ d1 d2 d3 d4 : Char,
      d1 ∈ hexChars → d2 ∈ hexChars → d3 ∈ hexChars → d4 ∈ hexChars →
      parseColor (String.mk ['#', d1, d2, d3, d4]) =
        parseColor (String.mk ['#', d1, d1, d2, d2, d3, d3, d4, d4])) := by
  constructor
  · intro d1 d2 d3 h1 h2 h3
    have hall3 : ∀ c ∈ [d1, d2, d3], c ∈ hexChars := by
      intro c hc
      have hc2 : c = d1 ∨ c = d2 ∨ c = d3 := by simpa using hc
      rcases hc2 with rfl | rfl | rfl
      exacts [h1, h2, h3]
    have hall6 : ∀ c ∈ [d1, d1, d2, d2, d3, d3], c ∈ hexChars := by
      intro c hc
      have hc2 : c = d1 ∨ c = d1 ∨ c = d2 ∨ c = d2 ∨ c = d3 ∨ c = d3 := by
        simpa using hc
      rcases hc2 with rfl | rfl | rfl | rfl | rfl | rfl
      exacts [h1, h1, h2, h2, h3, h3]
    have hm1 : matchHexDigits (jsTrim (String.mk ['#', d1, d2, d3]).data) =
        some [d1, d2, d3] := by
      rw [show (String.mk ['#', d1, d2, d3]).data = '#' :: [d1, d2, d3] from rfl,
        jsTrim_hash_hex hall3]
      exact matchHexDigits_of hall3 (by simp)
    have hm2 : matchHexDigits (jsTrim (String.mk
        ['#', d1, d1, d2, d2, d3, d3]).data) = some [d1, d1, d2, d2, d3, d3] := by
      rw [show (String.mk ['#', d1, d1, d2, d2, d3, d3]).data =
            '#' :: [d1, d1, d2, d2, d3, d3] from rfl,
        jsTrim_hash_hex hall6]
      exact matchHexDigits_of hall6 (by simp)
    rw [parseColor_hex _ hm1, parseColor_hex _ hm2]
    rfl
  · intro d1 d2 d3 d4 h1 h2 h3 h4
    have hall4 : ∀ c ∈ [d1, d2, d3, d4], c ∈ hexChars := by
      intro c hc
      have hc2 : c = d1 ∨ c = d2 ∨ c = d3 ∨ c = d4 := by simpa using hc
      rcases hc2 with rfl | rfl | rfl | rfl
      exacts [h1, h2, h3, h4]
    have hall8 : ∀ c ∈ [d1, d1, d2, d2, d3, d3, d4, d4], c ∈ hexChars := by
      intro c hc
      have hc2 : c = d1 ∨ c = d1 ∨ c = d2 ∨ c = d2 ∨ c = d3 ∨ c = d3 ∨
          c = d4 ∨ c = d4 := by simpa using hc
      rcases hc2 with rfl | rfl | rfl | rfl | rfl | rfl | rfl | rfl
      exacts [h1, h1, h2, h2, h3, h3, h4, h4]
    have hm1 : matchHexDigits (jsTrim (String.mk ['#', d1, d2, d3, d4]).data) =
        some [d1, d2, d3, d4] := by
      rw [show (String.mk ['#', d1, d2, d3, d4]).data =
            '#' :: [d1, d2, d3, d4] from rfl,
        jsTrim_hash_hex hall4]
      exact matchHexDigits_of hall4 (by simp)
    have hm2 : matchHexDigits (jsTrim (String.mk
        ['#', d1, d1, d2, d2, d3, d3, d4, d4]).data) =
        some [d1, d1, d2, d2, d3, d3, d4, d4] := by
      rw [show (String.mk ['#', d1, d1, d2, d2, d3, d3, d4, d4]).data =
            '#' :: [d1, d1, d2, d2, d3, d3, d4, d4] from rfl,
        jsTrim_hash_hex hall8]
      exact matchHexDigits_of hall8 (by simp)
    rw [parseColor_hex _ hm1, parseColor_hex _ hm2]
    rfl

/-- Witness for C8 at concrete digits. -/
theorem C8_digit_doubling_witness :
    parseColor (String.mk ['#', 'a', 'b', 'c']) =
      parseColor (String.mk ['#', 'a', 'a', 'b', 'b', 'c', 'c']) :=
  C8_digit_doubling.1 'a' 'b' 'c' (by decide) (by decide) (by decide)

/-- Claim C2: a valid 6-digit hex input yields alpha 1 and hex equal to the
uppercased input; a valid 8-digit hex input yields alpha equal to its last
byte pair over 255 and hex equal to the uppercased 6-digit RGB portion
(alpha is never encoded in the output hex). -/
theorem C2_hex_forms :
    (∀ ds : List Char, (∀ c ∈ ds, c ∈ hexChars) → ds.length = 6 →
      ∃ c, parseColor (String.mk ('#' :: ds)) = some c ∧ c.a = some 1 ∧
        c.hex = String.mk ('#' :: ds.map Char.toUpper)) ∧
    (∀ ds : List Char, (∀ c ∈ ds, c ∈ hexChars) → ds.length = 8 →
      ∃ c, parseColor (String.mk ('#' :: ds)) = some c ∧
        c.a = some (((16 * hexVal (ds.getD 6 '0') + hexVal (ds.getD 7 '0') : ℕ) : ℚ) / 255) ∧
        c.hex = String.mk ('#' :: (ds.take 6).map Char.toUpper)) := by
  constructor
  · intro ds hall h6
    obtain ⟨e1, e2, e3, e4, e5, e6, rfl⟩ := length_eq_six h6
    refine ⟨hexBranch [e1, e2, e3, e4, e5, e6], parseColor_hex _ ?_, ?_, ?_⟩
    · rw [show (String.mk ('#' :: [e1, e2, e3, e4, e5, e6])).data =
            '#' :: [e1, e2, e3, e4, e5, e6] from rfl,
        jsTrim_hash_hex hall]
      exact matchHexDigits_of hall (by simp)
    · show clamp01 (some 1) = some 1
      exact clamp01_of_bounds (by norm_num) (by norm_num)
    · show String.mk ('#' ::
          [Char.toUpper (Char.toLower e1), Char.toUpper (Char.toLower e2),
           Char.toUpper (Char.toLower e3), Char.toUpper (Char.toLower e4),
           Char.toUpper (Char.toLower e5), Char.toUpper (Char.toLower e6)]) = _
      rw [toUpper_toLower_of_hex e1 (hall e1 (by simp)),
        toUpper_toLower_of_hex e2 (hall e2 (by simp)),
        toUpper_toLower_of_hex e3 (hall e3 (by simp)),
        toUpper_toLower_of_hex e4 (hall e4 (by simp)),
        toUpper_toLower_of_hex e5 (hall e5 (by simp)),
        toUpper_toLower_of_hex e6 (hall e6 (by simp))]
      rfl
  · intro ds hall h8
    obtain ⟨e1, e2, e3, e4, e5, e6, e7, e8, rfl⟩ := length_eq_eight h8
    refine ⟨hexBranch [e1, e2, e3, e4, e5, e6, e7, e8], parseColor_hex _ ?_, ?_, ?_⟩
    · rw [show (String.mk ('#' :: [e1, e2, e3, e4, e5, e6, e7, e8])).data =
            '#' :: [e1, e2, e3, e4, e5, e6, e7, e8] from rfl,
        jsTrim_hash_hex hall]
      exact matchHexDigits_of hall (by simp)
    · have u7 := hexVal_toLower e7 (hall e7 (by simp))
      have u8 := hexVal_toLower e8 (hall e8 (by simp))
      have hb7 := hexVal_le_of_mem e7 (hall e7 (by simp))
      have hb8 := hexVal_le_of_mem e8 (hall e8 (by simp))
      show clamp01 (some (((16 * hexVal (Char.toLower e7) +
          hexVal (Char.toLower e8) : ℕ) : ℚ) / 255)) = _
      rw [u7, u8, clamp01_of_bounds (by positivity) ?ub]
      case ub =>
        rw [div_le_one (by norm_num)]
        exact_mod_cast (by omega : 16 * hexVal e7 + hexVal e8 ≤ 255)
      rfl
    · have u1 := toUpper_toLower_of_hex e1 (hall e1 (by simp))
      have u2 := toUpper_toLower_of_hex e2 (hall e2 (by simp))
      have u3 := toUpper_toLower_of_hex e3 (hall e3 (by simp))
      have u4 := toUpper_toLower_of_hex e4 (hall e4 (by simp))
      have u5 := toUpper_toLower_of_hex e5 (hall e5 (by simp))
      have u6 := toUpper_toLower_of_hex e6 (hall e6 (by simp))
      show String.mk ('#' ::
          [Char.toUpper (Char.toLower e1), Char.toUpper (Char.toLower e2),
           Char.toUpper (Char.toLower e3), Char.toUpper (Char.toLower e4),
           Char.toUpper (Char.toLower e5), Char.toUpper (Char.toLower e6)]) = _
      rw [u1, u2, u3, u4, u5, u6]
      rfl

/-- Witness for C2 at a concrete 6-digit and a concrete 8-digit input. -/
theorem C2_hex_forms_witness :
    (∃ c, parseColor (String.mk ('#' :: ("a1b2c3").data)) = some c ∧
      c.a = some 1 ∧
      c.hex = String.mk ('#' :: (("a1b2c3").data.map Char.toUpper))) ∧
    (∃ c, parseColor (String.mk ('#' :: ("a1b2c3ff").data)) = some c ∧
      c.a = some (((16 * hexVal (("a1b2c3ff").data.getD 6 '0') +
        hexVal (("a1b2c3ff").data.getD 7 '0') : ℕ) : ℚ) / 255) ∧
      c.hex = String.mk ('#' :: (("a1b2c3ff").data.take 6).map Char.toUpper)) :=
  ⟨C2_hex_forms.1 ("a1b2c3").data (by decide) (by decide),
    C2_hex_forms.2 ("a1b2c3ff").data (by decide) (by decide)⟩

/-! ### Extractor lemmas (C6) -/

lemma objSet_append {α : Type} {l : List (String × α)} {k : String} {v : α}
    (h : k ∉ l.map Prod.fst) : objSet l k v = l ++ [(k, v)] := by
  induction l with
  | nil => rfl
  | cons a t ih =>
    obtain ⟨k0, v0⟩ := a
    simp only [List.map_cons, List.mem_cons] at h
    push_neg at h
    simp only [objSet]
    rw [if_neg (fun he => h.1 he.symm)]
    simp [ih h.2]

lemma flatten_append_singleton (l : List (String × String))
    (kv : String × String) :
    flattenCssVarsToColorTokens (l ++ [kv]) =
      (if leadsWith ("--vscode-").data kv.1.data then
        match parseColor kv.2 with
        | some c =>
          objSet (flattenCssVarsToColorTokens l) kv.1
            (makeDtcgColorTokenFromParsedColor c)
        | none => flattenCssVarsToColorTokens l
      else flattenCssVarsToColorTokens l) := by
  unfold flattenCssVarsToColorTokens
  rw [List.foldl_append]
  rfl

lemma extract_g_key (a : String × String) (x : String × DtcgToken)
    (h : (if leadsWith ("--vscode-").data a.1.data then
        (parseColor a.2).map (fun c => (a.1, makeDtcgColorTokenFromParsedColor c))
      else none) = some x) : x.1 = a.1 := by
  by_cases hp : leadsWith ("--vscode-").data a.1.data
  · rw [if_pos hp] at h
    cases hc : parseColor a.2 with
    | none => rw [hc] at h; simp at h
    | some c =>
      rw [hc] at h
      obtain rfl : (a.1, makeDtcgColorTokenFromParsedColor c) = x := by
        simpa using h
      rfl
  · rw [if_neg hp] at h
    simp at h

lemma flatten_eq_filterMap (cssVars : List (String × String))
    (hnd : (cssVars.map Prod.fst).Nodup) :
    flattenCssVarsToColorTokens cssVars =
      cssVars.filterMap (fun kv =>
        if leadsWith ("--vscode-").data kv.1.data then
          (parseColor kv.2).map (fun c => (kv.1, makeDtcgColorTokenFromParsedColor c))
        else none) := by
  induction cssVars using List.reverseRecOn with
  | nil => rfl
  | append_singleton l kv ih =>
    have hmap : ((l ++ [kv]).map Prod.fst) = l.map Prod.fst ++ [kv.1] := by simp
    rw [hmap] at hnd
    have hnd1 : (l.map Prod.fst).Nodup := (List.nodup_append.mp hnd).1
    have hkout : kv.1 ∉ l.map Prod.fst := by
      intro hmem
      have hdisj := (List.nodup_append.mp hnd).2.2
      exact hdisj hmem (by simp)
    have hkeys2 : kv.1 ∉ (List.filterMap (fun kv =>
        if leadsWith ("--vscode-").data kv.1.data then
          (parseColor kv.2).map (fun c => (kv.1, makeDtcgColorTokenFromParsedColor c))
        else none) l).map Prod.fst := by
      intro hmem
      obtain ⟨x, hx, hx1⟩ := List.mem_map.mp hmem
      obtain ⟨a, ha, hga⟩ := List.mem_filterMap.mp hx
      have hk := extract_g_key a x hga
      exact hkout (by rw [← hx1, hk]; exact List.mem_map_of_mem Prod.fst ha)
    rw [flatten_append_singleton, ih hnd1, List.filterMap_append]
    by_cases hp : leadsWith ("--vscode-").data kv.1.data
    · rw [if_pos hp]
      cases hc : parseColor kv.2 with
      | none => simp [hp, hc]
      | some c =>
        show objSet (List.filterMap (fun kv =>
            if leadsWith ("--vscode-").data kv.1.data then
              (parseColor kv.2).map
                (fun c => (kv.1, makeDtcgColorTokenFromParsedColor c))
            else none) l) kv.1 (makeDtcgColorTokenFromParsedColor c) = _
        rw [objSet_append hkeys2]
        simp [hp, hc]
    · simp [hp]

lemma filterMap_g_filter (l : List (String × String)) :
    ((l.filter (fun kv => leadsWith ("--vscode-").data kv.1.data)).filterMap
      (fun kv =>
        if leadsWith ("--vscode-").data kv.1.data then
          (parseColor kv.2).map (fun c => (kv.1, makeDtcgColorTokenFromParsedColor c))
        else none)) =
    l.filterMap (fun kv =>
      if leadsWith ("--vscode-").data kv.1.data then
        (parseColor kv.2).map (fun c => (kv.1, makeDtcgColorTokenFromParsedColor c))
      else none) := by
  induction l with
  | nil => rfl
  | cons kv t ih =>
    by_cases hp : leadsWith ("--vscode-").data kv.1.data
    · simp only [List.filter_cons, hp, if_pos, List.filterMap_cons, ih]
    · simp only [List.filter_cons, hp, Bool.false_eq_true, if_false,
        List.filterMap_cons, ih]

/-- Claim C6: the extractor keeps exactly the entries whose original name
starts with `--vscode-` and whose value parses as a color; names without the
prefix never enter the flat token set (so nothing downstream of it), and
excluded entries are skipped without error. -/
theorem C6_extract_prefix_and_parse (cssVars : List (String × String))
    (hnd : (cssVars.map Prod.fst).Nodup) :
    flattenCssVarsToColorTokens cssVars =
      cssVars.filterMap (fun kv =>
        if leadsWith ("--vscode-").data kv.1.data then
          (parseColor kv.2).map (fun c => (kv.1, makeDtcgColorTokenFromParsedColor c))
        else none) ∧
    (∀ k ∈ (flattenCssVarsToColorTokens cssVars).map Prod.fst,
      leadsWith ("--vscode-").data k.data = true) ∧
    flattenCssVarsToColorTokens cssVars =
      flattenCssVarsToColorTokens
        (cssVars.filter (fun kv => leadsWith ("--vscode-").data kv.1.data)) := by
  refine ⟨flatten_eq_filterMap cssVars hnd, ?_, ?_⟩
  · intro k hk
    rw [flatten_eq_filterMap cssVars hnd] at hk
    obtain ⟨x, hx, hx1⟩ := List.mem_map.mp hk
    obtain ⟨a, ha, hga⟩ := List.mem_filterMap.mp hx
    have hkey := extract_g_key a x hga
    by_cases hp : leadsWith ("--vscode-").data a.1.data
    · rw [← hx1, hkey, hp]
    · rw [if_neg hp] at hga
      simp at hga
  · have hnd2 : ((cssVars.filter
        (fun kv => leadsWith ("--vscode-").data kv.1.data)).map Prod.fst).Nodup := by
      have hsub : (cssVars.filter
          (fun kv => leadsWith ("--vscode-").data kv.1.data)).Sublist cssVars :=
        List.filter_sublist _
      exact hnd.sublist (hsub.map Prod.fst)
    rw [flatten_eq_filterMap cssVars hnd, flatten_eq_filterMap _ hnd2,
      filterMap_g_filter]

/-- Witness for C6 at a concrete variable map containing an excluded name and
an unparseable value. -/
theorem C6_extract_prefix_and_parse_witness :
    flattenCssVarsToColorTokens
        [("--vscode-foreground", "#cccccc"), ("color", "#ffffff"),
          ("--vscode-bad", "var(--x)")] =
      [("--vscode-foreground", "#cccccc"), ("color", "#ffffff"),
        ("--vscode-bad", "var(--x)")].filterMap (fun kv =>
        if leadsWith ("--vscode-").data kv.1.data then
          (parseColor kv.2).map (fun c => (kv.1, makeDtcgColorTokenFromParsedColor c))
        else none) ∧
    (∀ k ∈ (flattenCssVarsToColorTokens
        [("--vscode-foreground", "#cccccc"), ("color", "#ffffff"),
          ("--vscode-bad", "var(--x)")]).map Prod.fst,
      leadsWith ("--vscode-").data k.data = true) ∧
    flattenCssVarsToColorTokens
        [("--vscode-foreground", "#cccccc"), ("color", "#ffffff"),
          ("--vscode-bad", "var(--x)")] =
      flattenCssVarsToColorTokens
        ([("--vscode-foreground", "#cccccc"), ("color", "#ffffff"),
          ("--vscode-bad", "var(--x)")].filter
          (fun kv => leadsWith ("--vscode-").data kv.1.data)) :=
  C6_extract_prefix_and_parse
    [("--vscode-foreground", "#cccccc"), ("color", "#ffffff"),
      ("--vscode-bad", "var(--x)")] (by decide)

/-! ### Union block lemmas (C4, C5) -/

lemma char_toNat_inj {a b : Char} (h : a.toNat = b.toNat) : a = b :=
  Char.ext (UInt32.ext h)

lemma listLe_total : ∀ as bs : List Char, listLe as bs = true ∨ listLe bs as = true := by
  intro as
  induction as with
  | nil => intro bs; left; rfl
  | cons a as ih =>
    intro bs
    cases bs with
    | nil => right; rfl
    | cons b bs =>
      by_cases h1 : a.toNat < b.toNat
      · left
        simp [listLe, h1]
      · by_cases h2 : b.toNat < a.toNat
        · right
          simp [listLe, h2]
        · obtain rfl : a = b := char_toNat_inj (by omega)
          rcases ih bs with h | h
          · left
            simpa [listLe] using h
          · right
            simpa [listLe] using h

lemma listLe_trans : ∀ as bs cs : List Char,
    listLe as bs = true → listLe bs cs = true → listLe as cs = true := by
  intro as
  induction as with
  | nil => intro bs cs h1 h2; rfl
  | cons a as ih =>
    intro bs cs h1 h2
    cases bs with
    | nil => simp [listLe] at h1
    | cons b bs =>
      cases cs with
      | nil => simp [listLe] at h2
      | cons c cs =>
        by_cases hab : a.toNat < b.toNat <;> by_cases hbc : b.toNat < c.toNat
        · simp [listLe, show a.toNat < c.toNat by omega]
        · by_cases hcb : c.toNat < b.toNat
          · simp [listLe, hbc, hcb] at h2
          · obtain rfl : b = c := char_toNat_inj (by omega)
            simp [listLe, hab]
        · by_cases hba : b.toNat < a.toNat
          · simp [listLe, hab, hba] at h1
          · obtain rfl : a = b := char_toNat_inj (by omega)
            simp [listLe, hbc]
        · by_cases hba : b.toNat < a.toNat
          · simp [listLe, hab, hba] at h1
          · by_cases hcb : c.toNat < b.toNat
            · simp [listLe, hbc, hcb] at h2
            · obtain rfl : a = b := char_toNat_inj (by omega)
              obtain rfl : a = c := char_toNat_inj (by omega)
              have hr1 : listLe as bs = true := by simpa [listLe] using h1
              have hr2 : listLe bs cs = true := by simpa [listLe] using h2
              simpa [listLe] using ih bs cs hr1 hr2

instance : IsTotal String (fun a b => strLe a b = true) :=
  ⟨fun a b => listLe_total a.data b.data⟩

instance : IsTrans String (fun a b => strLe a b = true) :=
  ⟨fun a b c => listLe_trans a.data b.data c.data⟩

lemma unionLoop_eq (flat : Flat) (keys : List String) :
    unionLoop flat keys =
      (keys.map (fun k => (k, (List.lookup k flat).getD TRANSPARENT_TOKEN)),
       keys.filter (fun k => (List.lookup k flat).isNone)) := by
  have main : ∀ (ks : List String) (acc : Flat × List String),
      ks.foldl
        (fun acc k =>
          match List.lookup k flat with
          | some t => (acc.1 ++ [(k, t)], acc.2)
          | none => (acc.1 ++ [(k, TRANSPARENT_TOKEN)], acc.2 ++ [k])) acc =
      (acc.1 ++ ks.map (fun k => (k, (List.lookup k flat).getD TRANSPARENT_TOKEN)),
       acc.2 ++ ks.filter (fun k => (List.lookup k flat).isNone)) := by
    intro ks
    induction ks with
    | nil => intro acc; simp
    | cons k t ih =>
      intro acc
      simp only [List.foldl_cons]
      cases hl : List.lookup k flat with
      | some tok =>
        rw [ih]
        simp [hl]
      | none =>
        rw [ih]
        simp [hl]
  have h0 := main keys ([], [])
  simpa [unionLoop] using h0

lemma setAdd_mem {l : List String} {k x : String} :
    x ∈ setAdd l k ↔ x ∈ l ∨ x = k := by
  by_cases hk : k ∈ l
  · simp only [setAdd, if_pos hk]
    constructor
    · exact Or.inl
    · rintro (h | rfl)
      · exact h
      · exact hk
  · simp [setAdd, hk]

lemma setAdd_nodup {l : List String} {k : String} (h : l.Nodup) :
    (setAdd l k).Nodup := by
  by_cases hk : k ∈ l
  · simpa [setAdd, hk] using h
  · simp [setAdd, hk, List.nodup_append, h]

lemma keysFold_mem (flat : Flat) :
    ∀ (acc : List String) (x : String),
      x ∈ flat.foldl (fun a kv => setAdd a kv.1) acc ↔
        x ∈ acc ∨ ∃ kv ∈ flat, x = kv.1 := by
  induction flat with
  | nil => intro acc x; simp
  | cons kv t ih =>
    intro acc x
    simp only [List.foldl_cons]
    rw [ih]
    rw [setAdd_mem]
    constructor
    · rintro ((h | rfl) | ⟨kv2, h2, rfl⟩)
      · exact Or.inl h
      · exact Or.inr ⟨kv, List.mem_cons_self _ _, rfl⟩
      · exact Or.inr ⟨kv2, List.mem_cons_of_mem _ h2, rfl⟩
    · rintro (h | ⟨kv2, h2, rfl⟩)
      · exact Or.inl (Or.inl h)
      · rcases List.mem_cons.mp h2 with rfl | h3
        · exact Or.inl (Or.inr rfl)
        · exact Or.inr ⟨kv2, h3, rfl⟩

lemma keysFold_nodup (flat : Flat) :
    ∀ acc : List String, acc.Nodup →
      (flat.foldl (fun a kv => setAdd a kv.1) acc).Nodup := by
  induction flat with
  | nil => intro acc h; exact h
  | cons kv t ih =>
    intro acc h
    simp only [List.foldl_cons]
    exact ih _ (setAdd_nodup h)

lemma itemsFold_mem (items : List (String × Flat)) :
    ∀ (acc : List String) (x : String),
      x ∈ items.foldl (fun acc it => it.2.foldl (fun a kv => setAdd a kv.1) acc) acc ↔
        x ∈ acc ∨ ∃ it ∈ items, ∃ kv ∈ it.2, x = kv.1 := by
  induction items with
  | nil => intro acc x; simp
  | cons it t ih =>
    intro acc x
    simp only [List.foldl_cons]
    rw [ih, keysFold_mem]
    constructor
    · rintro ((h | ⟨kv, hkv, rfl⟩) | ⟨it2, h2, kv, hkv, rfl⟩)
      · exact Or.inl h
      · exact Or.inr ⟨it, List.mem_cons_self _ _, kv, hkv, rfl⟩
      · exact Or.inr ⟨it2, List.mem_cons_of_mem _ h2, kv, hkv, rfl⟩
    · rintro (h | ⟨it2, h2, kv, hkv, rfl⟩)
      · exact Or.inl (Or.inl h)
      · rcases List.mem_cons.mp h2 with rfl | h3
        · exact Or.inl (Or.inr ⟨kv, hkv, rfl⟩)
        · exact Or.inr ⟨it2, h3, kv, hkv, rfl⟩

lemma itemsFold_nodup (items : List (String × Flat)) :
    ∀ acc : List String, acc.Nodup →
      (items.foldl (fun acc it => it.2.foldl (fun a kv => setAdd a kv.1) acc) acc).Nodup := by
  induction items with
  | nil => intro acc h; exact h
  | cons it t ih =>
    intro acc h
    simp only [List.foldl_cons]
    exact ih _ (keysFold_nodup it.2 _ h)

lemma unionKeysOf_sorted (items : List (String × Flat)) :
    (unionKeysOf items).Sorted (fun a b => strLe a b = true) :=
  List.sorted_insertionSort _ _

lemma unionKeysOf_nodup (items : List (String × Flat)) :
    (unionKeysOf items).Nodup := by
  unfold unionKeysOf
  have hperm := List.perm_insertionSort (fun a b : String => strLe a b = true)
    (items.foldl (fun acc it => it.2.foldl (fun a kv => setAdd a kv.1) acc) [])
  exact hperm.nodup_iff.mpr (itemsFold_nodup items [] (by simp))

lemma unionKeysOf_mem (items : List (String × Flat)) (k : String) :
    k ∈ unionKeysOf items ↔ ∃ it ∈ items, ∃ kv ∈ it.2, k = kv.1 := by
  unfold unionKeysOf
  have hperm := List.perm_insertionSort (fun a b : String => strLe a b = true)
    (items.foldl (fun acc it => it.2.foldl (fun a kv => setAdd a kv.1) acc) [])
  rw [hperm.mem_iff, itemsFold_mem]
  simp

/-- Claim C4: in every union report over at least two sources,
`present + missing.length` equals `totalUnionKeys` exactly, for every source. -/
theorem C4_report_invariant (items : List (String × Flat))
    (h2 : 2 ≤ items.length) :
    ∀ e ∈ (unionReport items).2,
      e.2.2 + (e.2.1.length : ℤ) = ((unionReport items).1 : ℤ) := by
  intro e he
  unfold unionReport at he ⊢
  simp only [List.mem_map] at he
  obtain ⟨it, hit, rfl⟩ := he
  ring

/-- Witness for C4 at one concrete report entry of a two-source union. -/
theorem C4_report_invariant_witness :
    (("a", (["--vscode-editor-background"] : List String), (1 : ℤ))).2.2 +
      ((("a", (["--vscode-editor-background"] : List String),
        (1 : ℤ))).2.1.length : ℤ) =
      ((unionReport
        [("a", [("--vscode-foreground", TRANSPARENT_TOKEN)]),
          ("b", [("--vscode-editor-background", TRANSPARENT_TOKEN),
                 ("--vscode-foreground", TRANSPARENT_TOKEN)])]).1 : ℤ) :=
  C4_report_invariant
    [("a", [("--vscode-foreground", TRANSPARENT_TOKEN)]),
      ("b", [("--vscode-editor-background", TRANSPARENT_TOKEN),
             ("--vscode-foreground", TRANSPARENT_TOKEN)])]
    (by decide)
    ("a", (["--vscode-editor-background"] : List String), (1 : ℤ))
    (by decide)

/-- Claim C5: the union keys are the ascending lexicographically sorted,
duplicate-free union of all source keys; for each source, each union key is
mapped to the source's own token when present and otherwise to the fixed
transparent-black placeholder while being recorded in that source's missing
list, which therefore lists missing keys in sorted union order. -/
theorem C5_union_merge_semantics :
    (∀ items : List (String × Flat),
      (unionKeysOf items).Sorted (fun a b => strLe a b = true) ∧
      (unionKeysOf items).Nodup ∧
      (∀ k, k ∈ unionKeysOf items ↔ ∃ it ∈ items, ∃ kv ∈ it.2, k = kv.1)) ∧
    (∀ (flat : Flat) (keys : List String),
      unionLoop flat keys =
        (keys.map (fun k => (k, (List.lookup k flat).getD TRANSPARENT_TOKEN)),
         keys.filter (fun k => (List.lookup k flat).isNone))) ∧
    TRANSPARENT_TOKEN.value.hex = "#000000" ∧
    TRANSPARENT_TOKEN.value.alpha = some 0 ∧
    (∀ items : List (String × Flat), ∀ it ∈ items,
      ((unionLoop it.2 (unionKeysOf items)).2).Sorted
        (fun a b => strLe a b = true)) := by
  refine ⟨fun items => ⟨unionKeysOf_sorted items, unionKeysOf_nodup items,
      unionKeysOf_mem items⟩, unionLoop_eq, rfl, rfl, ?_⟩
  intro items it hit
  rw [unionLoop_eq]
  exact (unionKeysOf_sorted items).filter _

/-- Witness for C5: missing list of a concrete source in a concrete union. -/
theorem C5_union_merge_semantics_witness :
    ((unionLoop [("--vscode-foreground", TRANSPARENT_TOKEN)]
        (unionKeysOf
          [("a", [("--vscode-foreground", TRANSPARENT_TOKEN)]),
            ("b", [("--vscode-editor-background", TRANSPARENT_TOKEN),
                   ("--vscode-foreground", TRANSPARENT_TOKEN)])])).2).Sorted
      (fun a b => strLe a b = true) :=
  C5_union_merge_semantics.2.2.2.2
    [("a", [("--vscode-foreground", TRANSPARENT_TOKEN)]),
      ("b", [("--vscode-editor-background", TRANSPARENT_TOKEN),
             ("--vscode-foreground", TRANSPARENT_TOKEN)])]
    ("a", [("--vscode-foreground", TRANSPARENT_TOKEN)])
    (List.mem_cons_self _ _)

/-! ### Color invariant lemmas (C1) -/

lemma toLower_mem_lower : ∀ c ∈ hexChars, Char.toLower c ∈ lowerHexChars := by
  decide

lemma lower_hexVal_le : ∀ c ∈ lowerHexChars, hexVal c ≤ 15 := by decide

lemma toUpper_mem_upper : ∀ c ∈ lowerHexChars, Char.toUpper c ∈ upperHexChars := by
  decide

lemma hexVal_toUpper_lower :
    ∀ c ∈ lowerHexChars, hexVal (Char.toUpper c) = hexVal c := by decide

set_option maxRecDepth 8192 in
lemma byteHex_ok : ∀ n, n < 256 →
    ((pad2 (natToHexChars n)).map Char.toUpper).length = 2 ∧
    (∀ c ∈ (pad2 (natToHexChars n)).map Char.toUpper, c ∈ upperHexChars) ∧
    16 * hexVal (((pad2 (natToHexChars n)).map Char.toUpper).getD 0 '0') +
      hexVal (((pad2 (natToHexChars n)).map Char.toUpper).getD 1 '0') = n := by
  decide

lemma numVal_nonneg {s : List Char} {q : ℚ} (h : numVal s = some q) : 0 ≤ q := by
  simp only [numVal] at h
  split_ifs at h with hd0 hd1
  · obtain rfl := Option.some.inj h
    positivity
  · obtain rfl := Option.some.inj h
    positivity

lemma jsRound_nonneg {q : ℚ} (h : 0 ≤ q) : 0 ≤ jsRound q :=
  Int.floor_nonneg.mpr (by linarith)

lemma jsRound_le_255 {q : ℚ} (h : q ≤ 255) : jsRound q ≤ 255 := by
  have h2 : jsRound q < 256 := Int.floor_lt.mpr (by push_cast; linarith)
  omega

lemma jsRound_natCast (n : ℕ) : jsRound ((n : ℚ)) = (n : ℤ) := by
  apply Int.floor_eq_iff.mpr
  constructor
  · push_cast
    linarith
  · push_cast
    linarith

lemma byte_div_nonneg (n : ℕ) : 0 ≤ ((n : ℚ) / 255) := by positivity

lemma byte_div_le_one {n : ℕ} (h : n ≤ 255) : ((n : ℚ) / 255) ≤ 1 := by
  rw [div_le_one (by norm_num)]
  exact_mod_cast h

lemma jsRound_byte_component (n : ℕ) :
    jsRound (((n : ℚ) / 255) * 255) = (n : ℤ) := by
  rw [div_mul_cancel₀ _ (by norm_num : (255 : ℚ) ≠ 0)]
  exact jsRound_natCast n

/-- The two uppercase hex digits of one rounded rgb channel. -/
lemma toHex_bytes {q : ℚ} (hq0 : 0 ≤ q) (hq255 : q ≤ 255) :
    ∃ u v, toHex (some q) = [u, v] ∧ u ∈ upperHexChars ∧ v ∈ upperHexChars ∧
      ((16 * hexVal u + hexVal v : ℕ) : ℤ) = jsRound q := by
  have hr0 : 0 ≤ jsRound q := jsRound_nonneg hq0
  have hr255 : jsRound q ≤ 255 := jsRound_le_255 hq255
  have hn : (jsRound q).toNat < 256 := by omega
  obtain ⟨hl2, hmem, hval⟩ := byteHex_ok _ hn
  have hint : intToHexChars (jsRound q) = natToHexChars (jsRound q).toNat := by
    unfold intToHexChars
    rw [if_neg (not_lt.mpr hr0)]
  obtain ⟨u, v, huv⟩ := List.length_eq_two.mp hl2
  refine ⟨u, v, ?_, ?_, ?_, ?_⟩
  · show (pad2 (intToHexChars (jsRound q))).map Char.toUpper = [u, v]
    rw [hint]
    exact huv
  · exact hmem u (huv ▸ (by simp))
  · exact hmem v (huv ▸ (by simp))
  · rw [huv] at hval
    simp only [List.getD_cons_zero, List.getD_cons_succ] at hval
    rw [hval]
    exact Int.toNat_of_nonneg hr0

lemma transparent_invariant :
    colorInvariant
      { r := some 0, g := some 0, b := some 0, a := some 0, hex := "#000000" } := by
  refine ⟨0, 0, 0, 0, rfl, rfl, rfl, rfl, le_refl 0, by norm_num, le_refl 0,
    by norm_num, le_refl 0, by norm_num, le_refl 0, by norm_num, by decide, ?_⟩
  have h0 : jsRound ((0 : ℚ) * 255) = 0 := by
    rw [zero_mul]
    exact_mod_cast jsRound_natCast 0
  rw [h0]
  decide

lemma hexRecord_invariant {c1 c2 c3 c4 c5 c6 : Char}
    (h1 : c1 ∈ lowerHexChars) (h2 : c2 ∈ lowerHexChars) (h3 : c3 ∈ lowerHexChars)
    (h4 : c4 ∈ lowerHexChars) (h5 : c5 ∈ lowerHexChars) (h6 : c6 ∈ lowerHexChars)
    (qa : ℚ) :
    colorInvariant
      { r := some (((16 * hexVal c1 + hexVal c2 : ℕ) : ℚ) / 255)
        g := some (((16 * hexVal c3 + hexVal c4 : ℕ) : ℚ) / 255)
        b := some (((16 * hexVal c5 + hexVal c6 : ℕ) : ℚ) / 255)
        a := clamp01 (some qa)
        hex := String.mk ('#' :: [c1.toUpper, c2.toUpper, c3.toUpper,
          c4.toUpper, c5.toUpper, c6.toUpper]) } := by
  have hb1 : 16 * hexVal c1 + hexVal c2 ≤ 255 := by
    have := lower_hexVal_le c1 h1
    have := lower_hexVal_le c2 h2
    omega
  have hb2 : 16 * hexVal c3 + hexVal c4 ≤ 255 := by
    have := lower_hexVal_le c3 h3
    have := lower_hexVal_le c4 h4
    omega
  have hb3 : 16 * hexVal c5 + hexVal c6 ≤ 255 := by
    have := lower_hexVal_le c5 h5
    have := lower_hexVal_le c6 h6
    omega
  refine ⟨_, _, _, jsMin 1 (jsMax 0 qa), rfl, rfl, rfl, rfl,
    byte_div_nonneg _, byte_div_le_one hb1,
    byte_div_nonneg _, byte_div_le_one hb2,
    byte_div_nonneg _, byte_div_le_one hb3,
    (clamp01_mem_unit qa).1, (clamp01_mem_unit qa).2, ?_, ?_⟩
  · show isUpperHex6 (String.mk ('#' :: [c1.toUpper, c2.toUpper, c3.toUpper,
      c4.toUpper, c5.toUpper, c6.toUpper])) = true
    simp only [isUpperHex6, List.all_cons, List.all_nil, Bool.and_true,
      Bool.and_eq_true, decide_eq_true_eq]
    refine ⟨rfl, ?_, ?_, ?_, ?_, ?_, ?_⟩
    · exact toUpper_mem_upper c1 h1
    · exact toUpper_mem_upper c2 h2
    · exact toUpper_mem_upper c3 h3
    · exact toUpper_mem_upper c4 h4
    · exact toUpper_mem_upper c5 h5
    · exact toUpper_mem_upper c6 h6
  · show hexDecode (String.mk ('#' :: [c1.toUpper, c2.toUpper, c3.toUpper,
      c4.toUpper, c5.toUpper, c6.toUpper])) = _
    show some (((16 * hexVal c1.toUpper + hexVal c2.toUpper : ℕ) : ℤ),
        ((16 * hexVal c3.toUpper + hexVal c4.toUpper : ℕ) : ℤ),
        ((16 * hexVal c5.toUpper + hexVal c6.toUpper : ℕ) : ℤ)) = _
    rw [hexVal_toUpper_lower c1 h1, hexVal_toUpper_lower c2 h2,
      hexVal_toUpper_lower c3 h3, hexVal_toUpper_lower c4 h4,
      hexVal_toUpper_lower c5 h5, hexVal_toUpper_lower c6 h6,
      jsRound_byte_component, jsRound_byte_component, jsRound_byte_component]

lemma length_eq_four {α : Type} {l : List α} (h : l.length = 4) :
    ∃ a b c d, l = [a, b, c, d] := by
  rcases l with _ | ⟨a, l⟩; · simp at h
  rcases l with _ | ⟨b, l⟩; · simp at h
  rcases l with _ | ⟨c, l⟩; · simp at h
  rcases l with _ | ⟨d, l⟩; · simp at h
  rcases l with _ | ⟨e, l⟩
  · exact ⟨a, b, c, d, rfl⟩
  · simp at h

lemma hexBranch_invariant {ds : List Char} (hall : ∀ c ∈ ds, c ∈ hexChars)
    (hlen : ds.length = 3 ∨ ds.length = 4 ∨ ds.length = 6 ∨ ds.length = 8) :
    colorInvariant (hexBranch ds) := by
  have hmem : ∀ c ∈ ds, Char.toLower c ∈ lowerHexChars :=
    fun c hc => toLower_mem_lower c (hall c hc)
  rcases hlen with h3 | h4 | h6 | h8
  · obtain ⟨d1, d2, d3, rfl⟩ := List.length_eq_three.mp h3
    exact hexRecord_invariant (hmem d1 (by simp)) (hmem d1 (by simp))
      (hmem d2 (by simp)) (hmem d2 (by simp))
      (hmem d3 (by simp)) (hmem d3 (by simp)) 1
  · obtain ⟨d1, d2, d3, d4, rfl⟩ := length_eq_four h4
    exact hexRecord_invariant (hmem d1 (by simp)) (hmem d1 (by simp))
      (hmem d2 (by simp)) (hmem d2 (by simp))
      (hmem d3 (by simp)) (hmem d3 (by simp))
      (((16 * hexVal d4.toLower + hexVal d4.toLower : ℕ) : ℚ) / 255)
  · obtain ⟨e1, e2, e3, e4, e5, e6, rfl⟩ := length_eq_six h6
    exact hexRecord_invariant (hmem e1 (by simp)) (hmem e2 (by simp))
      (hmem e3 (by simp)) (hmem e4 (by simp))
      (hmem e5 (by simp)) (hmem e6 (by simp)) 1
  · obtain ⟨e1, e2, e3, e4, e5, e6, e7, e8, rfl⟩ := length_eq_eight h8
    exact hexRecord_invariant (hmem e1 (by simp)) (hmem e2 (by simp))
      (hmem e3 (by simp)) (hmem e4 (by simp))
      (hmem e5 (by simp)) (hmem e6 (by simp))
      (((16 * hexVal e7.toLower + hexVal e8.toLower : ℕ) : ℚ) / 255)

lemma rgbBranch_invariant {s1 s2 s3 : List Char} {s4 : Option (List Char)}
    {q1 q2 q3 : ℚ}
    (h1 : numVal s1 = some q1) (hb1 : q1 ≤ 255)
    (h2 : numVal s2 = some q2) (hb2 : q2 ≤ 255)
    (h3 : numVal s3 = some q3) (hb3 : q3 ≤ 255)
    (ha : (match s4 with
           | none => some (1 : ℚ)
           | some s => numVal s).isSome = true) :
    colorInvariant (rgbBranch s1 s2 s3 s4) := by
  have halpha : ∃ qa, (rgbBranch s1 s2 s3 s4).a = some (jsMin 1 (jsMax 0 qa)) := by
    cases s4 with
    | none => exact ⟨1, rfl⟩
    | some s =>
      obtain ⟨qa, hqa⟩ := Option.isSome_iff_exists.mp (by simpa using ha)
      refine ⟨qa, ?_⟩
      show clamp01 (numVal s) = some (jsMin 1 (jsMax 0 qa))
      rw [hqa]
      rfl
  obtain ⟨qa, hqa⟩ := halpha
  have hn1 : 0 ≤ q1 := numVal_nonneg h1
  have hn2 : 0 ≤ q2 := numVal_nonneg h2
  have hn3 : 0 ≤ q3 := numVal_nonneg h3
  have hd1 : (0 : ℚ) ≤ q1 / 255 := by positivity
  have hd2 : (0 : ℚ) ≤ q2 / 255 := by positivity
  have hd3 : (0 : ℚ) ≤ q3 / 255 := by positivity
  have hu1 : q1 / 255 ≤ 1 := by rw [div_le_one (by norm_num)]; linarith
  have hu2 : q2 / 255 ≤ 1 := by rw [div_le_one (by norm_num)]; linarith
  have hu3 : q3 / 255 ≤ 1 := by rw [div_le_one (by norm_num)]; linarith
  obtain ⟨u1, v1, he1, hm1, hm1b, hv1⟩ := toHex_bytes hn1 hb1
  obtain ⟨u2, v2, he2, hm2, hm2b, hv2⟩ := toHex_bytes hn2 hb2
  obtain ⟨u3, v3, he3, hm3, hm3b, hv3⟩ := toHex_bytes hn3 hb3
  refine ⟨q1 / 255, q2 / 255, q3 / 255, jsMin 1 (jsMax 0 qa), ?_, ?_, ?_, hqa,
    hd1, hu1, hd2, hu2, hd3, hu3,
    (clamp01_mem_unit qa).1, (clamp01_mem_unit qa).2, ?_, ?_⟩
  · show clamp01 (jsDiv255 (numVal s1)) = some (q1 / 255)
    rw [h1]
    exact clamp01_of_bounds hd1 hu1
  · show clamp01 (jsDiv255 (numVal s2)) = some (q2 / 255)
    rw [h2]
    exact clamp01_of_bounds hd2 hu2
  · show clamp01 (jsDiv255 (numVal s3)) = some (q3 / 255)
    rw [h3]
    exact clamp01_of_bounds hd3 hu3
  · show isUpperHex6 (String.mk ('#' ::
      (toHex (numVal s1) ++ toHex (numVal s2) ++ toHex (numVal s3)))) = true
    rw [h1, h2, h3, he1, he2, he3]
    simp only [isUpperHex6, List.cons_append, List.nil_append,
      List.all_cons, List.all_nil, Bool.and_true, Bool.and_eq_true,
      decide_eq_true_eq]
    exact ⟨rfl, hm1, hm1b, hm2, hm2b, hm3, hm3b⟩
  · show hexDecode (String.mk ('#' ::
      (toHex (numVal s1) ++ toHex (numVal s2) ++ toHex (numVal s3)))) = _
    rw [h1, h2, h3, he1, he2, he3]
    show some (((16 * hexVal u1 + hexVal v1 : ℕ) : ℤ),
        ((16 * hexVal u2 + hexVal v2 : ℕ) : ℤ),
        ((16 * hexVal u3 + hexVal v3 : ℕ) : ℤ)) = _
    rw [hv1, hv2, hv3]
    have hc1 : jsRound ((q1 / 255) * 255) = jsRound q1 := by
      rw [div_mul_cancel₀ _ (by norm_num : (255 : ℚ) ≠ 0)]
    have hc2 : jsRound ((q2 / 255) * 255) = jsRound q2 := by
      rw [div_mul_cancel₀ _ (by norm_num : (255 : ℚ) ≠ 0)]
    have hc3 : jsRound ((q3 / 255) * 255) = jsRound q3 := by
      rw [div_mul_cancel₀ _ (by norm_num : (255 : ℚ) ≠ 0)]
    rw [hc1, hc2, hc3]

/-- Counterexample to claim C1 as stated: `rgb(300,0,0)` parses successfully,
but its `hex` field is `#12C0000` — seven hex digits, not six — and it does
not decode as a 6-digit color at all. -/
theorem C1_counterexample_out_of_range :
    parseColor "rgb(300,0,0)" =
      some { r := some 1, g := some 0, b := some 0, a := some 1,
             hex := "#12C0000" } ∧
    isUpperHex6 "#12C0000" = false ∧
    hexDecode "#12C0000" = none := by
  refine ⟨?_, by decide, by decide⟩
  have ht : jsTrim ("rgb(300,0,0)").data ≠ ("transparent").data := by decide
  have hh : matchHexDigits (jsTrim ("rgb(300,0,0)").data) = none := by decide
  have hm : matchRgbParts (jsTrim ("rgb(300,0,0)").data) =
      some (['3', '0', '0'], ['0'], ['0'], none) := by decide
  have h300 : numVal ['3', '0', '0'] = some ((300 : ℚ)) := by
    have hc : List.count '.' ['3', '0', '0'] = 0 := by decide
    have hn : natOfDigits ['3', '0', '0'] = 300 := by decide
    simp [numVal, hc, hn]
  have h0 : numVal ['0'] = some ((0 : ℚ)) := by
    have hc : List.count '.' ['0'] = 0 := by decide
    have hn : natOfDigits ['0'] = 0 := by decide
    simp [numVal, hc, hn]
  have hr300 : jsRound (300 : ℚ) = 300 := by
    have h := jsRound_natCast 300
    norm_num at h
    exact h
  have hr0 : jsRound (0 : ℚ) = 0 := by
    have h := jsRound_natCast 0
    norm_num at h
    exact h
  have hx300 : toHex (some (300 : ℚ)) = ['1', '2', 'C'] := by
    show (pad2 (intToHexChars (jsRound 300))).map Char.toUpper = _
    rw [hr300]
    decide
  have hx0 : toHex (some (0 : ℚ)) = ['0', '0'] := by
    show (pad2 (intToHexChars (jsRound 0))).map Char.toUpper = _
    rw [hr0]
    decide
  unfold parseColor
  rw [if_neg ht, hh, hm]
  refine congrArg some ?_
  show ({ r := clamp01 (jsDiv255 (numVal ['3', '0', '0']))
          g := clamp01 (jsDiv255 (numVal ['0']))
          b := clamp01 (jsDiv255 (numVal ['0']))
          a := clamp01 (some 1)
          hex := String.mk ('#' :: (toHex (numVal ['3', '0', '0']) ++
            toHex (numVal ['0']) ++ toHex (numVal ['0']))) } : NormalizedColor) =
    { r := some 1, g := some 0, b := some 0, a := some 1, hex := "#12C0000" }
  rw [h300, h0, hx300, hx0]
  simp only [jsDiv255, Option.map_some, clamp01, NormalizedColor.mk.injEq,
    Option.some.injEq]
  refine ⟨?_, ?_, ?_, ?_, by decide⟩
  · show some (jsMin 1 (jsMax 0 ((300 : ℚ) / 255))) = some 1
    refine congrArg some ?_
    unfold jsMin jsMax
    rw [if_pos (by norm_num : (0 : ℚ) ≤ 300 / 255),
      if_pos (by norm_num : (1 : ℚ) ≤ 300 / 255)]
  · show some (jsMin 1 (jsMax 0 ((0 : ℚ) / 255))) = some 0
    refine congrArg some ?_
    unfold jsMin jsMax
    rw [if_pos (by norm_num : (0 : ℚ) ≤ 0 / 255),
      if_neg (by norm_num : ¬ (1 : ℚ) ≤ 0 / 255)]
    norm_num
  · show some (jsMin 1 (jsMax 0 ((0 : ℚ) / 255))) = some 0
    refine congrArg some ?_
    unfold jsMin jsMax
    rw [if_pos (by norm_num : (0 : ℚ) ≤ 0 / 255),
      if_neg (by norm_num : ¬ (1 : ℚ) ≤ 0 / 255)]
    norm_num
  · show some (jsMin 1 (jsMax 0 (1 : ℚ))) = some 1
    refine congrArg some ?_
    unfold jsMin jsMax
    norm_num

/-- Claim C1 (amended): whenever `parseColor` succeeds and the input is not an
rgb()/rgba() form with a NaN numeral or a channel above 255, the result has
r, g, b, a in the unit interval and a `#`-prefixed 6-digit uppercase hex
field that encodes exactly the 8-bit roundings of r, g, b. -/
theorem C1_normalized_color_invariant (v : String) (c : NormalizedColor)
    (hp : parseColor v = some c) (hs : rgbSafe v = true) :
    colorInvariant c := by
  unfold parseColor at hp
  by_cases h1 : jsTrim v.data = ("transparent").data
  · rw [if_pos h1] at hp
    obtain rfl := Option.some.inj hp
    exact transparent_invariant
  · rw [if_neg h1] at hp
    cases h2 : matchHexDigits (jsTrim v.data) with
    | some ds =>
      rw [h2] at hp
      obtain rfl := Option.some.inj hp
      obtain ⟨-, hall, hlen⟩ := matchHexDigits_eq_some h2
      exact hexBranch_invariant hall hlen
    | none =>
      rw [h2] at hp
      cases h3 : matchRgbParts (jsTrim v.data) with
      | none =>
        rw [h3] at hp
        exact absurd hp (by simp)
      | some parts =>
        obtain ⟨s1, s2, s3, s4⟩ := parts
        rw [h3] at hp
        obtain rfl := Option.some.inj hp
        unfold rgbSafe at hs
        rw [h3] at hs
        simp only [Bool.and_eq_true] at hs
        obtain ⟨⟨⟨hc1, hc2⟩, hc3⟩, hca⟩ := hs
        have e1 : ∃ q, numVal s1 = some q ∧ q ≤ 255 := by
          unfold chanSafe at hc1
          cases hl : numVal s1 with
          | none => rw [hl] at hc1; exact absurd hc1 (by simp)
          | some q =>
            rw [hl] at hc1
            exact ⟨q, rfl, by simpa using hc1⟩
        have e2 : ∃ q, numVal s2 = some q ∧ q ≤ 255 := by
          unfold chanSafe at hc2
          cases hl : numVal s2 with
          | none => rw [hl] at hc2; exact absurd hc2 (by simp)
          | some q =>
            rw [hl] at hc2
            exact ⟨q, rfl, by simpa using hc2⟩
        have e3 : ∃ q, numVal s3 = some q ∧ q ≤ 255 := by
          unfold chanSafe at hc3
          cases hl : numVal s3 with
          | none => rw [hl] at hc3; exact absurd hc3 (by simp)
          | some q =>
            rw [hl] at hc3
            exact ⟨q, rfl, by simpa using hc3⟩
        obtain ⟨q1, hq1, hq1b⟩ := e1
        obtain ⟨q2, hq2, hq2b⟩ := e2
        obtain ⟨q3, hq3, hq3b⟩ := e3
        have ha : (match s4 with
            | none => some (1 : ℚ)
            | some s => numVal s).isSome = true := by
          cases s4 with
          | none => rfl
          | some s => simpa using hca
        exact rgbBranch_invariant hq1 hq1b hq2 hq2b hq3 hq3b ha

/-- Witness for C1 at a concrete in-range rgb input. -/
theorem C1_normalized_color_invariant_witness :
    ∃ c, parseColor "rgb(255, 0, 128)" = some c ∧ colorInvariant c := by
  have ht : jsTrim ("rgb(255, 0, 128)").data ≠ ("transparent").data := by decide
  have hh : matchHexDigits (jsTrim ("rgb(255, 0, 128)").data) = none := by decide
  have hm : matchRgbParts (jsTrim ("rgb(255, 0, 128)").data) =
      some (['2', '5', '5'], ['0'], ['1', '2', '8'], none) := by decide
  have hp : parseColor "rgb(255, 0, 128)" =
      some (rgbBranch ['2', '5', '5'] ['0'] ['1', '2', '8'] none) := by
    unfold parseColor
    rw [if_neg ht, hh, hm]
  exact ⟨_, hp, C1_normalized_color_invariant "rgb(255, 0, 128)" _ hp (by decide)⟩

end Convert
